import Mathlib

/-
Shallow embedding of mysh.cpp (a small interactive shell).

The C++ program parses an input line into a `Command` (whitespace tokenization
with `strtok_r(_, " ", _)`), validates its arity, and dispatches it to one of
ten operations.  Global state (history list, tracked current directory,
child-pid registry, run flag) is modelled by `ShellState`; the OS environment
(which directories open, the OS working directory, fork results, the contents
of an uninitialized stack buffer) is modelled by `Env`.  Observable actions
other than state updates (console prints, exec calls, signals) are collected
in a `List Effect`.  C++ behaviors that abort the normal control flow are made
explicit: `Crash.invalidArgument` models an uncaught `std::invalid_argument`
thrown by `stoi`, and `Crash.undefinedBehavior` models the out-of-bounds
`tokenized[0]` read in the `Command` constructor on a zero-token line.
-/

set_option autoImplicit false

deriving instance DecidableEq for Except

namespace Mysh

/-- The ten keyword strings, in `command_syms` order (mysh.cpp lines 34-45). -/
def KEYWORDS : List String :=
  ["movetodir", "whereami", "history", "byebye", "replay", "start",
   "background", "dalek", "repeat", "dalekall"]

/-- `strtok_r` with delimiter set `" "` over a character list: runs of spaces
separate tokens, empty tokens are never produced. -/
def splitSpaces : List Char → List (List Char)
  | [] => []
  | [c] => if c = ' ' then [] else [[c]]
  | c :: d :: rest =>
    if c = ' ' then splitSpaces (d :: rest)
    else
      match splitSpaces (d :: rest) with
      | [] => [[c]]
      | t :: ts => if d = ' ' then [c] :: t :: ts else (c :: t) :: ts

/-- `Command::tokenize` (mysh.cpp lines 73-86): split the input on spaces. -/
def tokenize (s : String) : List String :=
  (splitSpaces s.data).map String.mk

/-- `Command::getCommandNum` (mysh.cpp lines 124-132): index of the verb in
`KEYWORDS`, or `-1`. -/
def getCommandNum (command : String) : Int :=
  match KEYWORDS.findIdx? (fun k => k == command) with
  | some i => (i : Int)
  | none => -1

/-- The parsed representation of one input line (class `Command`).
`replayNum` is uninitialized in the source until `printHistory` assigns it. -/
structure Command where
  cmdInput : String
  command : String
  tokenized : List String
  args : List String
  numTokens : Nat
  commandNum : Int
  replayNum : Int
  deriving Repr, DecidableEq

/-- `Command::Command` (mysh.cpp lines 55-62).  The constructor reads
`tokenized[0]` with no guard; on a zero-token line that is an out-of-bounds
`std::vector` access (undefined behavior), modelled as `none`.  The
`replayNum` field is left uninitialized by the constructor, so its initial
value is an arbitrary `garbage` parameter. -/
def mkCommandR (input : String) (garbage : Int) : Option Command :=
  match tokenize input with
  | [] => none
  | c :: rest =>
    some { cmdInput := input, command := c, tokenized := tokenize input,
           args := rest, numTokens := (tokenize input).length,
           commandNum := getCommandNum c, replayNum := garbage }

/-- `mkCommandR` with garbage value 0. -/
def mkCommand (input : String) : Option Command :=
  mkCommandR input 0

/-- The `Command("0")` placeholder returned by `findReplayNum` on failure. -/
def cmd0 : Command :=
  { cmdInput := "0", command := "0", tokenized := ["0"], args := [],
    numTokens := 1, commandNum := -1, replayNum := 0 }

/-- Successful parses are total on inputs with at least one token. -/
def parseCmd (s : String) : Command :=
  (mkCommand s).getD cmd0

/-- `Command::hasCorrectNumArgs` (mysh.cpp lines 142-169). -/
def hasCorrectNumArgs (c : Command) : Bool :=
  let n := c.args.length
  if c.commandNum = 0 then n == 1
  else if c.commandNum = 1 then n == 0
  else if c.commandNum = 2 then n == 0 || n == 1
  else if c.commandNum = 3 then n == 0
  else if c.commandNum = 4 then n == 1
  else if c.commandNum = 5 then decide (1 ≤ n)
  else if c.commandNum = 6 then decide (1 ≤ n)
  else if c.commandNum = 7 then n == 1
  else if c.commandNum = 8 then decide (2 ≤ n)
  else if c.commandNum = 9 then n == 0
  else false

/-- `Command::validCmd` (mysh.cpp lines 104-106). -/
def validCmd (c : Command) : Bool :=
  decide (0 ≤ c.commandNum) && hasCorrectNumArgs c

/-- `Command::hasArgs` (mysh.cpp lines 110-112). -/
def hasArgs (c : Command) : Bool :=
  !c.args.isEmpty

/-- `Command::argsIs` (mysh.cpp lines 117-119); callers guard with `hasArgs`. -/
def argsIs (c : Command) (a : String) : Bool :=
  c.args.headD "" == a

/-- Whitespace skipped by `stoi` before the number. -/
def isSpaceCh (c : Char) : Bool :=
  c = ' ' || c = '\t' || c = '\n' || c = '\r'

/-- Decimal value of a digit list. -/
def digitsVal (cs : List Char) : Nat :=
  cs.foldl (fun a c => a * 10 + (c.toNat - 48)) 0

/-- `std::stoi`: optional whitespace, optional sign, then digits; `none`
models the `std::invalid_argument` exception when no digits are found. -/
def stoi (s : String) : Option Int :=
  let cs := s.data.dropWhile isSpaceCh
  match cs with
  | '-' :: rest =>
    let ds := rest.takeWhile Char.isDigit
    if ds.isEmpty then none else some (-(digitsVal ds : Int))
  | '+' :: rest =>
    let ds := rest.takeWhile Char.isDigit
    if ds.isEmpty then none else some ((digitsVal ds : Int))
  | _ =>
    let ds := cs.takeWhile Char.isDigit
    if ds.isEmpty then none else some ((digitsVal ds : Int))

/-- Ways a dispatch cycle can abort instead of returning. -/
inductive Crash where
  /-- `std::stoi` threw `std::invalid_argument` and nothing catches it. -/
  | invalidArgument
  /-- An out-of-bounds access with no defined result. -/
  | undefinedBehavior
  deriving Repr, DecidableEq

/-- Observable actions of one dispatch cycle other than shell-state updates. -/
inductive Effect where
  /-- A line written to the console. -/
  | print (line : String)
  /-- A child process was created and told to exec `prog` with argv `argv`;
  `bg` is true for `background`, false for `start`. -/
  | spawn (prog : String) (argv : List String) (bg : Bool)
  /-- Blocking `waitpid(pid, _, 0)`. -/
  | waitFor (pid : Int)
  /-- Non-blocking `waitpid(pid, _, WNOHANG)`. -/
  | waitNohang (pid : Int)
  /-- `kill(pid, SIGTERM)`. -/
  | kill (pid : Int)
  /-- `remove("mysh_history.txt")`. -/
  | removeHistoryFile
  deriving Repr, DecidableEq

/-- The shell's global mutable state (mysh.cpp lines 317-323).  `history` is
the `Command_Stack` list with its front at the head (push is `push_front`);
`forkCount` indexes the fork oracle in `Env`. -/
structure ShellState where
  history : List Command
  currentdir : String
  child_pids : List Int
  status : Int
  forkCount : Nat
  deriving Repr, DecidableEq

/-- The OS environment the shell consumes: which paths `opendir` accepts, the
result of `get_current_dir_name()`, the garbage initially in the stack buffer
`path` of `moveToDir`, and the pid returned by each successive `fork`. -/
structure Env where
  fsOpenable : String → Bool
  osCwd : String
  junk : String
  pidSupply : Nat → Int

/-- `Command_Stack::push` (mysh.cpp lines 284-286): insert at the front. -/
def histPush (c : Command) (l : List Command) : List Command :=
  c :: l

/-- One line of `printHistory` output. -/
def histLine (i : Nat) (s : String) : String :=
  "  " ++ toString i ++ ": " ++ s

/-- The loop of `Command_Stack::printHistory` (mysh.cpp lines 198-202):
walk the list from the front onward, overwrite each entry's `replayNum` with
the running counter and emit one line per entry. -/
def printHistLoop : Nat → List Command → List Command × List Effect
  | _, [] => ([], [])
  | i, c :: rest =>
    ({ c with replayNum := (i : Int) } :: (printHistLoop (i + 1) rest).1,
     Effect.print (histLine i c.cmdInput) :: (printHistLoop (i + 1) rest).2)

/-- `Command_Stack::printHistory` (mysh.cpp lines 192-203): nothing happens on
an empty stack; otherwise a header plus the numbered entries, with the
`replayNum` fields updated as a side effect. -/
def printHistory (l : List Command) : List Command × List Effect :=
  if l.length == 0 then (l, [])
  else ((printHistLoop 0 l).1, Effect.print "  History:" :: (printHistLoop 0 l).2)

/-- The scan loop of `Command_Stack::findReplayNum` (mysh.cpp lines 212-221):
first entry (front to back) whose stored `replayNum` equals the requested
index; a match that is itself a `replay` command prints a diagnostic and
aborts the scan. -/
def findScan (req : Command) (i : Int) : List Command → Option Command × List Effect
  | [] => (none, [])
  | c :: rest =>
    if c.replayNum == i then
      if c.commandNum = 4 then
        (none, [Effect.print ("  Invalid Command: " ++ req.command ++ " " ++ c.cmdInput)])
      else (some c, [])
    else findScan req i rest

/-- `Command_Stack::findReplayNum` (mysh.cpp lines 208-224).  On an empty
stack it returns `Command("0")` before touching the argument; otherwise
`stoi(cmd.args[0])` runs inside the loop (throwing on non-numeric input) and
the scan result (or `Command("0")`) is returned. -/
def findReplayNum (hist : List Command) (cmd : Command) :
    Except Crash (Command × List Effect) :=
  if hist.isEmpty then .ok (cmd0, [])
  else
    match stoi (cmd.args.headD "") with
    | none => .error .invalidArgument
    | some i =>
      match findScan cmd i hist with
      | (some c, eff) => .ok (c, eff)
      | (none, eff) => .ok (cmd0, eff)

/-- Join entries with a literal comma (the loop of
`Command_Stack::printToFile`, mysh.cpp lines 259-264). -/
def joinCommaCh : List (List Char) → List Char
  | [] => []
  | [x] => x
  | x :: y :: ys => x ++ ',' :: joinCommaCh (y :: ys)

/-- The `getline(stream, cmd, ',')` loop of `Command_Stack::readFromFile`
(mysh.cpp lines 238-240): split on commas; a trailing empty segment is not
produced because a `getline` that extracts nothing at end of input fails. -/
def splitCommaCh : List Char → List (List Char)
  | [] => []
  | c :: rest =>
    if c = ',' then [] :: splitCommaCh rest
    else
      match splitCommaCh rest with
      | [] => [[c]]
      | x :: xs => (c :: x) :: xs

/-- `Command_Stack::printToFile` (mysh.cpp lines 251-267): the single line
written to the history file (the trailing newline is omitted here because
`readFromFile`'s outer `getline` strips it).  An empty stack writes nothing. -/
def printToFile (l : List Command) : List Char :=
  joinCommaCh (l.map fun c => c.cmdInput.data)

/-- Re-parse each entry read back from the file; `none` if any entry makes the
`Command` constructor perform its out-of-bounds access. -/
def mkCommands : List String → Option (List Command)
  | [] => some []
  | s :: rest =>
    match mkCommand s, mkCommands rest with
    | some c, some cs => some (c :: cs)
    | _, _ => none

/-- `Command_Stack::readFromFile` (mysh.cpp lines 227-248): split the line on
commas and `push_back` a re-parsed `Command` for each entry, in file order. -/
def readFromFile (content : List Char) : Option (List Command) :=
  mkCommands ((splitCommaCh content).map String.mk)

/-- `moveToDir` (mysh.cpp lines 621-665) given the environment, the tracked
directory and the argument; returns (result, new tracked dir, effects).
If `opendir` fails: diagnostic, unchanged.  Otherwise the first character
decides: neither `.` nor `/` resolves against `get_current_dir_name()` (not
the tracked directory); `/` is `strcat`ed onto the uninitialized buffer
(`env.junk`); `.` falls into the final else, which rejects the path. -/
def moveToDirCore (env : Env) (currentdir arg : String) : Bool × String × List Effect :=
  if env.fsOpenable arg = false then
    (false, currentdir, [Effect.print ("  Directory " ++ arg ++ ": not found")])
  else
    let c0 := arg.data.headD ' '
    if c0 ≠ '.' ∧ c0 ≠ '/' then
      (true, env.osCwd ++ "/" ++ arg ++ "/", [])
    else if c0 = '/' then
      (true, env.junk ++ arg ++ "/", [])
    else
      (false, currentdir, [Effect.print ("  Directory " ++ arg ++ ": not found")])

/-- The program path `start` passes to `execvp` (mysh.cpp lines 534-539):
a single argument is prefixed with the tracked directory, otherwise
`args[0]` is passed through unchanged. -/
def startProgramPath (currentdir : String) (args : List String) : String :=
  if args.length == 1 then currentdir ++ args.headD "" else args.headD ""

/-- `start` (mysh.cpp lines 524-562): fork, exec the resolved program path in
the child, block on `waitpid`.  A failed fork only prints a diagnostic. -/
def startOp (env : Env) (s : ShellState) (cmd : Command) : ShellState × List Effect :=
  let pid := env.pidSupply s.forkCount
  let s1 := { s with forkCount := s.forkCount + 1 }
  if 0 < pid then
    (s1, [Effect.spawn (startProgramPath s.currentdir cmd.args) cmd.args false,
          Effect.waitFor pid])
  else
    (s1, [Effect.print "  Failed forking child.."])

/-- `background` (mysh.cpp lines 569-611): fork, record the pid in
`child_pids` (`push_back`) and report it, exec `args[0]` unresolved in the
child, do not block.  Returns the fork result. -/
def backgroundOp (env : Env) (s : ShellState) (cmd : Command) :
    Int × ShellState × List Effect :=
  let pid := env.pidSupply s.forkCount
  let s1 := { s with forkCount := s.forkCount + 1 }
  if 0 < pid then
    (pid, { s1 with child_pids := s1.child_pids ++ [pid] },
     [Effect.spawn (cmd.args.headD "") cmd.args true,
      Effect.print ("  PID: " ++ toString pid)])
  else
    (pid, s1, [Effect.print "  Failed forking child.."])

/-- `findChildPid` (mysh.cpp lines 510-519): index of a pid in the registry,
or `-1`. -/
def findChildPid (pids : List Int) (pid : Int) : Int :=
  match pids.findIdx? (fun x => x == pid) with
  | some i => (i : Int)
  | none => -1

/-- `dalek` (mysh.cpp lines 463-487): `stoi` the argument (throwing on
non-numeric input), reap non-blockingly, signal, erase the pid from the
registry if present, otherwise report failure. -/
def dalekOp (s : ShellState) (cmd : Command) : Except Crash (ShellState × List Effect) :=
  match stoi (cmd.args.headD "") with
  | none => .error .invalidArgument
  | some p =>
    let idx := findChildPid s.child_pids p
    let pids1 := if 0 ≤ idx then s.child_pids.eraseIdx idx.toNat else s.child_pids
    .ok ({ s with child_pids := pids1 },
      [Effect.waitNohang p, Effect.kill p] ++
        (if idx < 0 then [Effect.print ("  Could not terminate PID: " ++ toString p)]
         else []))

/-- `dalekall` (mysh.cpp lines 490-506): snapshot the registry, signal every
entry, clear the registry, report the count. -/
def dalekallOp (s : ShellState) : ShellState × List Effect :=
  ({ s with child_pids := [] },
   (s.child_pids.map Effect.kill) ++
     [Effect.print ("  Exterminating " ++ toString s.child_pids.length ++ " processes")])

/-- The command string `repeat` synthesizes (mysh.cpp lines 431-440):
`"background"` followed by a space, then every argument after the count, each
with a trailing space. -/
def combineRepeatStr (args : List String) : String :=
  "background" ++ " " ++ ((args.drop 1).foldl (fun acc a => acc ++ a ++ " ") "")

/-- The launch loop of `repeat` (mysh.cpp lines 454-455). -/
def backgroundLoop (env : Env) : Nat → ShellState → Command → ShellState × List Effect
  | 0, s, _ => (s, [])
  | n + 1, s, c =>
    ((backgroundLoop env n (backgroundOp env s c).2.1 c).1,
     (backgroundOp env s c).2.2 ++ (backgroundLoop env n (backgroundOp env s c).2.1 c).2)

/-- `repeat` (mysh.cpp lines 430-459): `stoi` the count (throwing on
non-numeric input), build the forced-`background` command, reject it with a
diagnostic if invalid, otherwise launch it `n` times. -/
def repeatOp (env : Env) (s : ShellState) (cmd : Command) :
    Except Crash (ShellState × List Effect) :=
  match stoi (cmd.args.headD "") with
  | none => .error .invalidArgument
  | some n =>
    match mkCommand (combineRepeatStr cmd.args) with
    | none => .ok (s, [])
    | some rpt =>
      if validCmd rpt = false then
        .ok (s, [Effect.print ("  Invalid Command: " ++ cmd.cmdInput)])
      else
        .ok ((backgroundLoop env n.toNat s rpt).1, (backgroundLoop env n.toNat s rpt).2)

/-- `getHelp` (mysh.cpp lines 684-697): exact match of the raw input. -/
def getHelp (c : Command) : Bool :=
  c.cmdInput == "help"

/-- The output of `getHelp` on a match: blank line, banner, the ten keywords,
blank line. -/
def helpEffects : List Effect :=
  Effect.print "" :: Effect.print "  The following are valid commands:" ::
    ((KEYWORDS.map fun k => Effect.print ("  " ++ k)) ++ [Effect.print ""])

/-- `executeCommand` (mysh.cpp lines 379-426) with a fuel parameter bounding
the `replay` recursion.  Fuel 2 reproduces the source exactly: the scan in
`findReplayNum` never hands a `replay` entry back to the dispatcher, so the
recursion is at most one level deep and the fuel-0 guard is unreachable.
Result: `(switch result, new state, effects)` or an escaped exception. -/
def executeCommandF : Nat → Env → ShellState → Command →
    Except Crash (Bool × ShellState × List Effect)
  | 0, _, _, _ => .error .undefinedBehavior
  | fuel + 1, env, s, cmd =>
    if validCmd cmd = false then .ok (false, s, [])
    else if cmd.commandNum = 0 then
      .ok (true, { s with currentdir := (moveToDirCore env s.currentdir (cmd.args.headD "")).2.1 },
        (moveToDirCore env s.currentdir (cmd.args.headD "")).2.2)
    else if cmd.commandNum = 1 then
      .ok (true, s, [Effect.print s.currentdir])
    else if cmd.commandNum = 2 then
      if cmd.numTokens = 1 then
        .ok (true, { s with history := (printHistory s.history).1 },
          (printHistory s.history).2)
      else if cmd.numTokens = 2 ∧ argsIs cmd "-c" = true then
        .ok (true, { s with history := [] },
          [Effect.removeHistoryFile, Effect.print "  History Cleared"])
      else .ok (false, s, [])
    else if cmd.commandNum = 3 then
      .ok (true, { s with status := 0 }, [])
    else if cmd.commandNum = 4 then
      match findReplayNum s.history cmd with
      | .error e => .error e
      | .ok (found, effF) =>
        match executeCommandF fuel env s found with
        | .error e => .error e
        | .ok (_, s1, eff1) => .ok (true, s1, effF ++ eff1)
    else if cmd.commandNum = 5 then
      .ok (true, (startOp env s cmd).1, (startOp env s cmd).2)
    else if cmd.commandNum = 6 then
      .ok (true, (backgroundOp env s cmd).2.1, (backgroundOp env s cmd).2.2)
    else if cmd.commandNum = 7 then
      match dalekOp s cmd with
      | .error e => .error e
      | .ok (s1, eff) => .ok (true, s1, eff)
    else if cmd.commandNum = 8 then
      match repeatOp env s cmd with
      | .error e => .error e
      | .ok (s1, eff) => .ok (true, s1, eff)
    else if cmd.commandNum = 9 then
      .ok (true, (dalekallOp s).1, (dalekallOp s).2)
    else .ok (false, s, [])

/-- One dispatch of `executeCommand` as called from the read loop. -/
def executeCommand (env : Env) (s : ShellState) (cmd : Command) :
    Except Crash (Bool × ShellState × List Effect) :=
  executeCommandF 2 env s cmd

/-- One iteration of `run_sh` (mysh.cpp lines 350-372) on a given input line:
construct the `Command` (undefined behavior on a zero-token line), short-cut
on `help`, dispatch, then apply the history-append policy. -/
def runStep (env : Env) (s : ShellState) (input : String) :
    Except Crash (ShellState × List Effect) :=
  match mkCommand input with
  | none => .error .undefinedBehavior
  | some cmd =>
    if getHelp cmd then .ok (s, helpEffects)
    else
      match executeCommand env s cmd with
      | .error e => .error e
      | .ok (okFlag, s1, eff) =>
        if validCmd cmd && !(cmd.commandNum == 3) && okFlag then
          if hasArgs cmd && (!(cmd.commandNum == 2) || !(argsIs cmd "-c")) then
            .ok ({ s1 with history := histPush cmd s1.history }, eff)
          else if !(hasArgs cmd) then
            .ok ({ s1 with history := histPush cmd s1.history }, eff)
          else
            .ok (s1, eff)
        else if cmd.commandNum == 3 then
          .ok (s1, eff)
        else
          .ok (s1, eff ++ [Effect.print ("  Invalid command: " ++ cmd.cmdInput)])

/-! Concrete environments, states and stores used by the concrete theorems. -/

/-- Environment where `.` and `sub` are openable directories. -/
def env4 : Env :=
  { fsOpenable := fun p => p == "." || p == "sub", osCwd := "/os", junk := "",
    pidSupply := fun _ => 1 }

/-- Environment whose forks always return pid 7. -/
def env5 : Env :=
  { fsOpenable := fun _ => false, osCwd := "/os", junk := "",
    pidSupply := fun _ => 7 }

/-- A state whose tracked directory is `/home/u/`. -/
def st5 : ShellState :=
  { history := [], currentdir := "/home/u/", child_pids := [], status := 1,
    forkCount := 0 }

/-- Environment whose n-th fork returns pid 100 + n. -/
def env6 : Env :=
  { fsOpenable := fun _ => false, osCwd := "/os", junk := "",
    pidSupply := fun n => 100 + (n : Int) }

/-- A fresh state with an empty registry. -/
def st6 : ShellState :=
  { history := [], currentdir := "/d/", child_pids := [], status := 1,
    forkCount := 0 }

/-- Environment where only `sub` is an openable directory. -/
def env8 : Env :=
  { fsOpenable := fun p => p == "sub", osCwd := "/os", junk := "",
    pidSupply := fun _ => 1 }

/-- A two-entry history: `movetodir sub` pushed after `replay 9`, then listed
once by `printHistory` (so the stored replay numbers are 0 and 1). -/
def h8 : List Command :=
  (printHistory [parseCmd "movetodir sub", parseCmd "replay 9"]).1

/-- A state holding `h8` with tracked directory `/t/`. -/
def st8 : ShellState :=
  { history := h8, currentdir := "/t/", child_pids := [], status := 1,
    forkCount := 0 }

/-- A state whose only history entry is a `replay` command with stored replay
number 0 (never listed, so the field still has its garbage value 0). -/
def st8w : ShellState :=
  { history := [parseCmd "replay 7"], currentdir := "/t/", child_pids := [],
    status := 1, forkCount := 0 }

/-- History built by pushing `whereami` and then `start ls`. -/
def h3 : List Command :=
  histPush (parseCmd "start ls") (histPush (parseCmd "whereami") [])

/-- `h3` after one listing (stored replay numbers 0 for `start ls`,
1 for `whereami`). -/
def h7base : List Command :=
  (printHistory [parseCmd "start ls", parseCmd "whereami"]).1

/-- `h7base` with a freshly pushed, never-listed entry in front; its
`replayNum` holds the constructor's garbage value 0. -/
def h7 : List Command :=
  parseCmd "byebye" :: h7base

/-- The query command `replay 0`. -/
def cReplay0 : Command :=
  parseCmd "replay 0"

/-- A two-entry store for the save/load round-trip witness. -/
def histC9 : List Command :=
  [parseCmd "whereami", parseCmd "movetodir sub"]

/-! Helper lemmas. -/

/-- A string whose character list is empty is the empty string. -/
theorem string_of_data_nil {s : String} (h : s.data = []) : s = "" := by
  cases s with
  | mk d =>
    simp only [String.data] at h
    rw [h]

/-- Rebuilding a string from its character list is the identity. -/
theorem string_mk_data (s : String) : String.mk s.data = s := by
  cases s with
  | mk d => rfl

/-- A successful parse records the raw input verbatim. -/
theorem mkCommand_cmdInput {s : String} {c : Command} (h : mkCommand s = some c) :
    c.cmdInput = s := by
  unfold mkCommand mkCommandR at h
  cases ht : tokenize s with
  | nil => rw [ht] at h; exact absurd h (by simp)
  | cons a t =>
    rw [ht] at h
    injection h with h
    rw [← h]

/-- Any input with at least one token parses successfully, keeping the raw
input. -/
theorem mkCommand_some (s : String) (h : tokenize s ≠ []) :
    ∃ c, mkCommand s = some c ∧ c.cmdInput = s := by
  unfold mkCommand mkCommandR
  cases ht : tokenize s with
  | nil => exact absurd ht h
  | cons a t => exact ⟨_, rfl, rfl⟩

/-- `mkCommands` succeeds on a list of tokenizable entries and reproduces the
entries as the raw texts. -/
theorem mkCommands_map (ts : List String) (h : ∀ s ∈ ts, tokenize s ≠ []) :
    ∃ cs, mkCommands ts = some cs ∧ cs.map Command.cmdInput = ts := by
  induction ts with
  | nil => exact ⟨[], rfl, rfl⟩
  | cons s rest ih =>
    obtain ⟨c, hc, hinput⟩ := mkCommand_some s (h s (by simp))
    obtain ⟨cs, hcs, hmap⟩ := ih (fun x hx => h x (by simp [hx]))
    refine ⟨c :: cs, ?_, ?_⟩
    · simp only [mkCommands, hc, hcs]
    · simp [hinput, hmap]

/-- The scan of `findReplayNum` is the first entry (front to back) whose
STORED `replayNum` equals the query, post-filtered by the replay check. -/
theorem findScan_eq (req : Command) (i : Int) (l : List Command) :
    findScan req i l =
      match l.find? (fun c => c.replayNum == i) with
      | some c =>
        if c.commandNum = 4 then
          (none, [Effect.print ("  Invalid Command: " ++ req.command ++ " " ++ c.cmdInput)])
        else (some c, [])
      | none => (none, []) := by
  induction l with
  | nil => rfl
  | cons a t ih =>
    by_cases h : (a.replayNum == i) = true
    · have hf : List.find? (fun c => c.replayNum == i) (a :: t) = some a := by
        simp [List.find?, h]
      rw [findScan, if_pos h, hf]
    · have h' : (a.replayNum == i) = false := by
        cases hb : a.replayNum == i
        · rfl
        · exact absurd hb h
      have hni : ¬((a.replayNum == i) = true) := by
        rw [h']
        exact Bool.false_ne_true
      have hf : List.find? (fun c => c.replayNum == i) (a :: t) =
          List.find? (fun c => c.replayNum == i) t := by
        simp [List.find?, h']
      rw [findScan, if_neg hni, hf, ih]

/-- The `printHistory` loop rewrites the `replayNum` fields to consecutive
counter values starting at the front of the list. -/
theorem printHistLoop_replayNums (l : List Command) : ∀ i : Nat,
    (printHistLoop i l).1.map Command.replayNum =
      (List.range' i l.length).map (fun n => (n : Int)) := by
  induction l with
  | nil => intro i; rfl
  | cons c t ih =>
    intro i
    show (i : Int) :: (printHistLoop (i + 1) t).1.map Command.replayNum = _
    rw [ih (i + 1)]
    rfl

/-- The `printHistory` loop does not change which raw texts are stored, nor
their order. -/
theorem printHistLoop_cmdInputs (l : List Command) : ∀ i : Nat,
    (printHistLoop i l).1.map Command.cmdInput = l.map Command.cmdInput := by
  induction l with
  | nil => intro i; rfl
  | cons c t ih =>
    intro i
    show c.cmdInput :: (printHistLoop (i + 1) t).1.map Command.cmdInput = _
    rw [ih (i + 1)]
    rfl

/-- Splitting after appending a comma: the comma-free first chunk comes off. -/
theorem splitCommaCh_append (x z : List Char) (hx : ',' ∉ x) :
    splitCommaCh (x ++ ',' :: z) = x :: splitCommaCh z := by
  induction x with
  | nil => simp [splitCommaCh]
  | cons c t ih =>
    have hc : ¬(c = ',') := fun h => hx (h ▸ List.mem_cons_self c t)
    have ht : ',' ∉ t := fun h => hx (List.mem_cons_of_mem c h)
    rw [List.cons_append, splitCommaCh, if_neg hc, ih ht]

/-- A nonempty comma-free chunk splits to itself. -/
theorem splitCommaCh_single (x : List Char) (hne : x ≠ []) (hx : ',' ∉ x) :
    splitCommaCh x = [x] := by
  induction x with
  | nil => exact absurd rfl hne
  | cons c t ih =>
    have hc : ¬(c = ',') := fun h => hx (h ▸ List.mem_cons_self c t)
    have ht : ',' ∉ t := fun h => hx (List.mem_cons_of_mem c h)
    cases t with
    | nil => simp [splitCommaCh, hc]
    | cons d u =>
      rw [splitCommaCh, if_neg hc, ih (by simp) ht]

/-- Splitting undoes joining when every chunk is nonempty and comma-free. -/
theorem splitCommaCh_join (parts : List (List Char))
    (h : ∀ p ∈ parts, p ≠ [] ∧ ',' ∉ p) (hne : parts ≠ []) :
    splitCommaCh (joinCommaCh parts) = parts := by
  induction parts with
  | nil => exact absurd rfl hne
  | cons x rest ih =>
    cases rest with
    | nil =>
      have hx := h x (by simp)
      rw [joinCommaCh, splitCommaCh_single x hx.1 hx.2]
    | cons y ys =>
      have hx := h x (by simp)
      have hrest : ∀ p ∈ y :: ys, p ≠ [] ∧ ',' ∉ p := fun p hp => h p (by simp [hp])
      rw [joinCommaCh, splitCommaCh_append x _ hx.2, ih hrest (by simp)]

/-! Claim theorems. -/

/-- C1: the claim says a zero-token line (empty or all-whitespace) yields a
degenerate Command and one dispatch cycle completes normally.  The code does
the opposite: the `Command` constructor reads `tokenized[0]` from an empty
vector, an out-of-bounds access, so the cycle aborts with undefined behavior
instead of completing. -/
theorem c1_empty_line_ub (env : Env) (s : ShellState) :
    mkCommand "" = none ∧ mkCommand "   " = none ∧
    runStep env s "" = .error .undefinedBehavior ∧
    runStep env s "   " = .error .undefinedBehavior :=
  ⟨rfl, rfl, rfl, rfl⟩

/-- C2: the claim says a dispatch cycle never lets an exception escape, in
particular on a non-numeric argument to TERMINATE, REPLAY or REPEAT.  The
code calls `stoi` on the unvalidated argument with no handler, so
`std::invalid_argument` escapes on `dalek abc`, on `replay zz` (with a
non-empty history), and on `repeat xx ls`. -/
theorem c2_exception_escapes (env : Env) (s : ShellState) :
    runStep env s "dalek abc" = .error .invalidArgument ∧
    runStep env { s with history := parseCmd "whereami" :: s.history } "replay zz" =
      .error .invalidArgument ∧
    runStep env s "repeat xx ls" = .error .invalidArgument :=
  ⟨rfl, rfl, rfl⟩

/-- C3 counterexample: in the store built by pushing `whereami` and then
`start ls`, the listing pairs index 0 with `start ls` (the NEWEST entry),
while the oldest surviving entry is `whereami`, so index 0 does not denote
the oldest entry as claimed. -/
theorem c3_counterexample :
    (printHistory h3).2.get? 1 = some (Effect.print (histLine 0 "start ls")) ∧
    h3.getLast?.map Command.cmdInput = some "whereami" ∧
    ("start ls" : String) ≠ "whereami" := by
  decide

/-- C3 amended: `printHistory` iterates newest-to-oldest (from the front of
the list, where `push` inserts) assigning indices 0, 1, 2, …, so index 0
denotes the most recently pushed surviving entry; the stored `replayNum`
fields are mutated to those indices and the raw texts are unchanged. -/
theorem c3_amended (l : List Command) (c : Command) :
    (printHistory (histPush c l)).2.get? 1 = some (Effect.print (histLine 0 c.cmdInput)) ∧
    (printHistory l).1.map Command.replayNum =
      (List.range' 0 l.length).map (fun n => (n : Int)) ∧
    (printHistory l).1.map Command.cmdInput = l.map Command.cmdInput := by
  refine ⟨rfl, ?_, ?_⟩
  · cases l with
    | nil => rfl
    | cons a t =>
      show (printHistLoop 0 (a :: t)).1.map Command.replayNum = _
      exact printHistLoop_replayNums (a :: t) 0
  · cases l with
    | nil => rfl
    | cons a t =>
      show (printHistLoop 0 (a :: t)).1.map Command.cmdInput = _
      exact printHistLoop_cmdInputs (a :: t) 0

/-- C4 counterexample: with `.` and `sub` both openable, `movetodir .` is
rejected with a "not found" diagnostic and leaves the tracked directory
unchanged (the claim says a `.`-prefixed path is used as-is), and the bare
name `sub` is resolved against the OS working directory `/os`, not against
the shell's tracked directory `/tracked/`. -/
theorem c4_counterexample :
    moveToDirCore env4 "/tracked/" "." =
      (false, "/tracked/", [Effect.print "  Directory .: not found"]) ∧
    moveToDirCore env4 "/tracked/" "sub" = (true, "/os/sub/", []) ∧
    ("/os/sub/" : String) ≠ "/tracked/sub/" := by
  decide

/-- C4 amended: a non-openable path fails with a diagnostic and no change; an
openable path starting with `.` is also rejected with the same diagnostic and
no change; an openable bare name is resolved against the OS working
directory (`get_current_dir_name()`), giving `osCwd ++ "/" ++ arg ++ "/"`;
an openable path starting with `/` is appended (with trailing `/`) to the
contents of the uninitialized buffer. -/
theorem c4_amended (env : Env) (cd arg : String) :
    (env.fsOpenable arg = false →
      moveToDirCore env cd arg =
        (false, cd, [Effect.print ("  Directory " ++ arg ++ ": not found")])) ∧
    (env.fsOpenable arg = true → arg.data.headD ' ' = '.' →
      moveToDirCore env cd arg =
        (false, cd, [Effect.print ("  Directory " ++ arg ++ ": not found")])) ∧
    (env.fsOpenable arg = true → arg.data.headD ' ' ≠ '.' → arg.data.headD ' ' ≠ '/' →
      moveToDirCore env cd arg = (true, env.osCwd ++ "/" ++ arg ++ "/", [])) ∧
    (env.fsOpenable arg = true → arg.data.headD ' ' = '/' →
      moveToDirCore env cd arg = (true, env.junk ++ arg ++ "/", [])) := by
  refine ⟨?_, ?_, ?_, ?_⟩
  · intro h1
    rw [moveToDirCore, if_pos h1]
  · intro h1 h2
    rw [moveToDirCore, if_neg (by simp [h1])]
    show (if (arg.data.headD ' ' ≠ '.' ∧ _) then _ else _) = _
    rw [if_neg (fun hand => hand.1 h2), if_neg (by rw [h2]; decide)]
  · intro h1 h2 h3
    rw [moveToDirCore, if_neg (by simp [h1])]
    show (if (_ ∧ _) then _ else _) = _
    rw [if_pos ⟨h2, h3⟩]
  · intro h1 h2
    rw [moveToDirCore, if_neg (by simp [h1])]
    show (if (_ ≠ _ ∧ _ ≠ _) then _ else _) = _
    rw [if_neg (fun hand => hand.2 h2), if_pos h2]

/-- C4 amended witness: concrete instances of the second and third cases at
the environment `env4`. -/
theorem c4_amended_witness :
    env4.fsOpenable "." = true ∧
    moveToDirCore env4 "/tracked/" "." =
      (false, "/tracked/", [Effect.print ("  Directory " ++ "." ++ ": not found")]) ∧
    moveToDirCore env4 "/tracked/" "sub" =
      (true, env4.osCwd ++ "/" ++ "sub" ++ "/", []) :=
  ⟨by decide,
   (c4_amended env4 "/tracked/" ".").2.1 (by decide) (by decide),
   (c4_amended env4 "/tracked/" "sub").2.2.1 (by decide) (by decide) (by decide)⟩

/-- C5 counterexample: on the same single bare program name `prog` with
tracked directory `/home/u/`, foreground `start` execs the resolved path
`/home/u/prog` while `background` execs the unresolved `prog`: the spawn
semantics are not identical. -/
theorem c5_counterexample :
    (startOp env5 st5 (parseCmd "start prog")).2.head? =
      some (Effect.spawn "/home/u/prog" ["prog"] false) ∧
    (backgroundOp env5 st5 (parseCmd "background prog")).2.2.head? =
      some (Effect.spawn "prog" ["prog"] true) ∧
    ("/home/u/prog" : String) ≠ "prog" := by
  decide

/-- C5 amended: `background` always passes `args[0]` to exec unresolved — its
spawn effect never involves the tracked current directory (changing it leaves
the effects unchanged) — whereas `start` execs `startProgramPath`, which
prefixes the tracked directory exactly when there is a single argument. -/
theorem c5_amended (env : Env) (s : ShellState) (cmd : Command)
    (hp : 0 < env.pidSupply s.forkCount) :
    (backgroundOp env s cmd).2.2.head? =
      some (Effect.spawn (cmd.args.headD "") cmd.args true) ∧
    (∀ cd, (backgroundOp env { s with currentdir := cd } cmd).2.2 =
      (backgroundOp env s cmd).2.2) ∧
    (startOp env s cmd).2.head? =
      some (Effect.spawn (startProgramPath s.currentdir cmd.args) cmd.args false) := by
  refine ⟨?_, ?_, ?_⟩
  · show ((if 0 < env.pidSupply s.forkCount then _ else _ :
      Int × ShellState × List Effect)).2.2.head? = _
    rw [if_pos hp]
    rfl
  · intro cd
    show ((if 0 < env.pidSupply s.forkCount then _ else _ :
      Int × ShellState × List Effect)).2.2 = ((if 0 < env.pidSupply s.forkCount
        then _ else _ : Int × ShellState × List Effect)).2.2
    rw [if_pos hp, if_pos hp]
  · show ((if 0 < env.pidSupply s.forkCount then _ else _ :
      ShellState × List Effect)).2.head? = _
    rw [if_pos hp]
    rfl

/-- C5 amended witness: instance at the concrete environment `env5`, state
`st5` and command `background prog`. -/
theorem c5_amended_witness :
    0 < env5.pidSupply st5.forkCount ∧
    ((backgroundOp env5 st5 (parseCmd "background prog")).2.2.head? =
      some (Effect.spawn ((parseCmd "background prog").args.headD "")
        (parseCmd "background prog").args true) ∧
    (∀ cd, (backgroundOp env5 { st5 with currentdir := cd }
        (parseCmd "background prog")).2.2 =
      (backgroundOp env5 st5 (parseCmd "background prog")).2.2) ∧
    (startOp env5 st5 (parseCmd "background prog")).2.head? =
      some (Effect.spawn (startProgramPath st5.currentdir
        (parseCmd "background prog").args) (parseCmd "background prog").args false)) :=
  ⟨by decide, c5_amended env5 st5 (parseCmd "background prog") (by decide)⟩

/-- C6 counterexample: on input `repeat 3 background echo hi` the three
spawned processes exec the program `background` (with argv
`[background, echo, hi]`), not the program `echo` with argument `hi` as the
claim states — the forced `background` verb is prepended in front of the
user's own `background` token. -/
theorem c6_counterexample :
    ((executeCommand env6 st6 (parseCmd "repeat 3 background echo hi")).toOption.map
      fun r => r.2.2.filter fun e => match e with
        | Effect.spawn _ _ _ => true
        | _ => false) =
      some (List.replicate 3 (Effect.spawn "background" ["background", "echo", "hi"] true)) ∧
    Effect.spawn "background" ["background", "echo", "hi"] true ≠
      Effect.spawn "echo" ["echo", "hi"] true := by
  decide

/-- C6 amended: `repeat 3 background echo hi` synthesizes the command
`background background echo hi `, validates it, and launches it exactly 3
times: the registry gains three pids (100, 101, 102 under `env6`'s fork
oracle) and each of the three spawned processes execs the program
`background` with argv `[background, echo, hi]`. -/
theorem c6_amended :
    combineRepeatStr (parseCmd "repeat 3 background echo hi").args =
      "background background echo hi " ∧
    executeCommand env6 st6 (parseCmd "repeat 3 background echo hi") =
      .ok (true, { history := [], currentdir := "/d/",
                   child_pids := [100, 101, 102], status := 1, forkCount := 3 },
        [Effect.spawn "background" ["background", "echo", "hi"] true,
         Effect.print ("  PID: " ++ toString (100 : Int)),
         Effect.spawn "background" ["background", "echo", "hi"] true,
         Effect.print ("  PID: " ++ toString (101 : Int)),
         Effect.spawn "background" ["background", "echo", "hi"] true,
         Effect.print ("  PID: " ++ toString (102 : Int))]) := by
  decide

/-- C7 counterexample: in the store `h7` — `whereami` then `start ls`, listed
once (stored indices 1 and 0), then `byebye` pushed without a new listing —
`findReplayNum` on index 0 returns the just-pushed `byebye` (whose stored
`replayNum` still holds the constructor's garbage value 0), not the entry at
freshly-assigned position 0: the result depends on replay-index values cached
by the earlier listing, not solely on the store's contents and the index. -/
theorem c7_counterexample :
    findReplayNum h7 cReplay0 = .ok (parseCmd "byebye", []) ∧
    h7.getLast?.map Command.cmdInput = some "whereami" ∧
    (parseCmd "byebye").cmdInput ≠ "whereami" := by
  decide

/-- C7 amended: `findReplayNum` does not recompute indices at query time: it
returns the first entry in list order (newest to oldest) whose STORED
`replayNum` field — the value left behind by the most recent `printHistory`,
or constructor garbage for entries never listed — equals the parsed query
index, with a replay-typed match rejected to `Command("0")` plus a
diagnostic. -/
theorem c7_amended (hist : List Command) (cmd : Command) (i : Int)
    (hne : hist ≠ []) (hs : stoi (cmd.args.headD "") = some i) :
    findReplayNum hist cmd =
      .ok (match hist.find? (fun c => c.replayNum == i) with
        | some c =>
          if c.commandNum = 4 then
            (cmd0, [Effect.print ("  Invalid Command: " ++ cmd.command ++ " " ++ c.cmdInput)])
          else (c, [])
        | none => (cmd0, [])) := by
  have hemp : hist.isEmpty = false := by
    cases hist with
    | nil => exact absurd rfl hne
    | cons a t => rfl
  rw [findReplayNum, if_neg (by rw [hemp]; exact Bool.false_ne_true), hs]
  show (match findScan cmd i hist with
    | (some c, eff) => Except.ok (c, eff)
    | (none, eff) => Except.ok (cmd0, eff)) = _
  rw [findScan_eq]
  cases hfind : hist.find? (fun c => c.replayNum == i) with
  | none => rfl
  | some c =>
    dsimp only
    by_cases hc : c.commandNum = 4
    · rw [if_pos hc, if_pos hc]
    · rw [if_neg hc, if_neg hc]

/-- C7 amended witness: instance at the concrete store `h7` and query
`replay 0`. -/
theorem c7_amended_witness :
    h7 ≠ [] ∧ stoi (cReplay0.args.headD "") = some 0 ∧
    findReplayNum h7 cReplay0 =
      .ok (match h7.find? (fun c => c.replayNum == (0 : Int)) with
        | some c =>
          if c.commandNum = 4 then
            (cmd0, [Effect.print ("  Invalid Command: " ++ cReplay0.command ++ " " ++ c.cmdInput)])
          else (c, [])
        | none => (cmd0, [])) :=
  ⟨by decide, by decide, c7_amended h7 cReplay0 0 (by decide) (by decide)⟩

/-- Dispatch of a valid `replay` command: look the index up in the history
and dispatch the result with one level of recursion less. -/
theorem executeCommandF_replay (fuel : Nat) (env : Env) (s : ShellState) (cmd : Command)
    (hv : validCmd cmd = true) (hn : cmd.commandNum = 4) :
    executeCommandF (fuel + 1) env s cmd =
      match findReplayNum s.history cmd with
      | .error e => .error e
      | .ok (found, effF) =>
        match executeCommandF fuel env s found with
        | .error e => .error e
        | .ok (_, s1, eff1) => .ok (true, s1, effF ++ eff1) := by
  rw [executeCommandF, if_neg (by rw [hv]; decide), hn,
      if_neg (by decide), if_neg (by decide), if_neg (by decide), if_neg (by decide),
      if_pos rfl]

/-- C8 counterexample: in state `st8` the entry at position 0
oldest-to-newest (the last of the list) is the REPLAY command `replay 9`, so
the claim requires `replay 0` to be rejected with no state change; instead
the scan matches the stored index 0 of the newer `movetodir sub` entry and
executes it, changing the tracked directory from `/t/` to `/os/sub/` with no
diagnostic at all. -/
theorem c8_counterexample :
    h8.getLast?.map Command.commandNum = some 4 ∧
    executeCommand env8 st8 cReplay0 =
      .ok (true, { history := h8, currentdir := "/os/sub/", child_pids := [],
                   status := 1, forkCount := 0 }, []) ∧
    ("/os/sub/" : String) ≠ "/t/" := by
  decide

/-- C8 amended: when the entry MATCHED by the scan — the first entry in list
order whose stored `replayNum` equals the parsed index — is itself a REPLAY
command, the lookup rejects it: a diagnostic naming the offending entry is
the only effect, the placeholder `Command("0")` is dispatched as invalid so
no operation executes, and the shell state (tracked directory, registry, run
flag, history) is unchanged. -/
theorem c8_amended (env : Env) (s : ShellState) (cmd : Command) (i : Int) (c : Command)
    (hv : validCmd cmd = true) (hn : cmd.commandNum = 4)
    (hs : stoi (cmd.args.headD "") = some i)
    (hf : s.history.find? (fun e => e.replayNum == i) = some c)
    (hr : c.commandNum = 4) :
    executeCommand env s cmd =
      .ok (true, s,
        [Effect.print ("  Invalid Command: " ++ cmd.command ++ " " ++ c.cmdInput)]) := by
  have hne : s.history ≠ [] := by
    intro h0
    rw [h0] at hf
    exact absurd hf (by simp)
  have hemp : s.history.isEmpty = false := by
    cases hh : s.history with
    | nil => exact absurd hh hne
    | cons a t => rfl
  have hfr : findReplayNum s.history cmd =
      .ok (cmd0, [Effect.print ("  Invalid Command: " ++ cmd.command ++ " " ++ c.cmdInput)]) := by
    rw [findReplayNum, if_neg (by rw [hemp]; exact Bool.false_ne_true), hs]
    show (match findScan cmd i s.history with
      | (some c, eff) => Except.ok (c, eff)
      | (none, eff) => Except.ok (cmd0, eff)) = _
    rw [findScan_eq, hf]
    dsimp only
    rw [if_pos hr]
  rw [executeCommand, show (2 : Nat) = 1 + 1 from rfl,
      executeCommandF_replay 1 env s cmd hv hn, hfr]
  rfl

/-- C8 amended witness: instance at state `st8w`, whose only (and therefore
scan-matched) entry is the replay command `replay 7` with stored index 0. -/
theorem c8_amended_witness :
    validCmd cReplay0 = true ∧
    executeCommand env8 st8w cReplay0 =
      .ok (true, st8w,
        [Effect.print ("  Invalid Command: " ++ cReplay0.command ++ " " ++
          (parseCmd "replay 7").cmdInput)]) :=
  ⟨by decide,
   c8_amended env8 st8w cReplay0 0 (parseCmd "replay 7") (by decide) (by decide)
     (by decide) (by decide) (by decide)⟩

/-- C9: saving a non-empty store and loading the file back into a fresh store
reproduces exactly the original ordered sequence of raw command texts,
provided no entry contains a comma (and each entry tokenizes, which holds for
every entry the shell ever stores, since construction requires a token). -/
theorem c9_roundtrip (l : List Command) (hne : l ≠ [])
    (h : ∀ c ∈ l, tokenize c.cmdInput ≠ [] ∧ ',' ∉ c.cmdInput.data) :
    ∃ cs, readFromFile (printToFile l) = some cs ∧
      cs.map Command.cmdInput = l.map Command.cmdInput := by
  have hparts : ∀ p ∈ l.map (fun c => c.cmdInput.data), p ≠ [] ∧ ',' ∉ p := by
    intro p hp
    obtain ⟨c, hc, rfl⟩ := List.mem_map.mp hp
    refine ⟨?_, (h c hc).2⟩
    intro hdata
    exact (h c hc).1 (by rw [string_of_data_nil hdata]; rfl)
  have hmapne : l.map (fun c => c.cmdInput.data) ≠ [] := by
    cases l with
    | nil => exact absurd rfl hne
    | cons a t => simp
  have hsplit := splitCommaCh_join (l.map fun c => c.cmdInput.data) hparts hmapne
  have hmapped : (splitCommaCh (printToFile l)).map String.mk = l.map Command.cmdInput := by
    rw [printToFile, hsplit, List.map_map]
    exact List.map_congr_left (fun c _ => string_mk_data c.cmdInput)
  have htok : ∀ s ∈ (splitCommaCh (printToFile l)).map String.mk, tokenize s ≠ [] := by
    rw [hmapped]
    intro s hs
    obtain ⟨c, hc, rfl⟩ := List.mem_map.mp hs
    exact (h c hc).1
  obtain ⟨cs, hcs, hmap⟩ := mkCommands_map _ htok
  refine ⟨cs, ?_, ?_⟩
  · rw [readFromFile]
    exact hcs
  · rw [hmap, hmapped]

/-- C9 witness: the round-trip at the concrete two-entry store `histC9`. -/
theorem c9_roundtrip_witness :
    histC9 ≠ [] ∧
    ∃ cs, readFromFile (printToFile histC9) = some cs ∧
      cs.map Command.cmdInput = histC9.map Command.cmdInput :=
  ⟨by decide, c9_roundtrip histC9 (by decide) (by decide)⟩

/-- C10: the exact input line `help` prints the ten keywords and bypasses
dispatch and the history policy entirely (the state, history included, is
returned untouched), and any line whose raw text is not exactly `help` fails
the `getHelp` test, so the shortcut does not affect it. -/
theorem c10_help (env : Env) (s : ShellState) (input : String) (h : input ≠ "help") :
    runStep env s "help" = .ok (s, helpEffects) ∧
    (∀ k ∈ KEYWORDS, Effect.print ("  " ++ k) ∈ helpEffects) ∧
    (∀ c, mkCommand input = some c → getHelp c = false) := by
  refine ⟨rfl, by decide, ?_⟩
  intro c hc
  have hcc : c.cmdInput = input := mkCommand_cmdInput hc
  rw [getHelp, hcc]
  exact beq_eq_false_iff_ne.mpr h

/-- C10 witness: instance at the non-`help` input `ls`. -/
theorem c10_help_witness :
    ("ls" : String) ≠ "help" ∧
    (runStep env5 st5 "help" = .ok (st5, helpEffects) ∧
     (∀ k ∈ KEYWORDS, Effect.print ("  " ++ k) ∈ helpEffects) ∧
     (∀ c, mkCommand "ls" = some c → getHelp c = false)) :=
  ⟨by decide, c10_help env5 st5 "ls" (by decide)⟩

end Mysh
